import Mathlib

/-!
Shallow embedding of `VlpProblem.to_file` from `src/benpy/HelperClass.py`
(lines 27-166).  The encoder walks a VLP model (constraint matrix `B`,
objective matrix `P`, row bounds `a`/`b`, column bounds `l`/`s`, cone
generators `Y`/`Z`, duality parameter `c`, direction `opt_dir`) and writes
the textual VLP format line by line.

Modelling decisions:
* Real scalars are rationals; extended values (the bound entries, which may
  be `-inf`/`+inf`) are `XVal`.  Matrices are lists of rows.
* Each emitted line is a structured `VlpLine` value (the whitespace
  rendering of numbers is not modelled; indices, tags and values are).
* Python exceptions become `VlpError` values.  The malformed
  `file.write('i %d s %g\n', i, aa[i])` calls at lines 131 and 161 pass
  three positional arguments to `write`, which raises `TypeError` before
  anything is written; this is `VlpError.typeErrorWrite`.
* The sink is modelled by the list of lines written so far, plus `opened` /
  `closed` flags.  `file.close()` (line 166) runs only on the path where no
  exception was raised, since the code has no `try`/`finally` or `with`.
* `open(filename, 'w')` can fail with `OSError`; the Boolean `openOk`
  stands for that environment condition, and `filenameGiven` for the
  `filename is None` check at line 31.
* The `hasattr(self, 'ub')`/`hasattr(self, 'lb')` branches at lines 33-36
  never fire because `__init__` always sets the `s` and `l` attributes, so
  they are not modelled.
-/

/-- An extended real scalar: `-inf`, a finite rational, or `+inf`.
Mirrors the IEEE values the Python code compares with `<`, `==` and
`np.isfinite` (NaN never arises from the modelled inputs). -/
inductive XVal where
  | negInf : XVal
  | fin (q : ℚ) : XVal
  | posInf : XVal
deriving DecidableEq, Repr

/-- `<` on extended reals, as Python evaluates it on floats. -/
def XVal.lt : XVal → XVal → Bool
  | .negInf, .negInf => false
  | .negInf, _ => true
  | .fin _, .negInf => false
  | .fin q, .fin r => decide (q < r)
  | .fin _, .posInf => true
  | .posInf, _ => false

/-- `np.isfinite`. -/
def XVal.isFinite : XVal → Bool
  | .fin _ => true
  | _ => false

/-- A row-bound argument (`self.a` / `self.b`): absent, a rank-1 vector, or
a rank-2 array (which the rank checks at lines 103-106 reject). -/
inductive BArr where
  | none : BArr
  | vec (v : List XVal) : BArr
  | mat (rows : List (List XVal)) : BArr
deriving DecidableEq, Repr

/-- `len(np.array(x).shape)`: `()` for `None`, rank otherwise. -/
def BArr.rank : BArr → Nat
  | .none => 0
  | .vec _ => 1
  | .mat _ => 2

/-- The helper `getlen` (line 28-29): `0` for `None`, else `len(obj)`. -/
def BArr.getlen : BArr → Nat
  | .none => 0
  | .vec v => v.length
  | .mat rows => rows.length

/-- The duality-parameter argument `self.c`: absent, a rank-1 vector, or a
rank-2 array (rejected by the shape test at line 97). -/
inductive CArr where
  | none : CArr
  | vec (v : List ℚ) : CArr
  | mat (rows : List (List ℚ)) : CArr
deriving DecidableEq, Repr

/-- The `VlpProblem` attribute bag set by `__init__` (lines 15-25). -/
structure VlpProblem where
  B : Option (List (List ℚ))
  a : BArr
  b : BArr
  l : Option (List XVal)
  s : Option (List XVal)
  P : Option (List (List ℚ))
  Y : Option (List (List ℚ))
  Z : Option (List (List ℚ))
  c : CArr
  opt_dir : Option Int
deriving DecidableEq, Repr

/-- The exceptions `to_file` can raise, one constructor per raise site
(plus `typeErrorWrite` for the malformed `file.write` calls and
`indexError` for out-of-range bound indexing). -/
inductive VlpError where
  | noFilename
  | missingB
  | missingP
  | colMismatch
  | invalidOptDir
  | osError
  | cDimension
  | aDimension
  | bDimension
  | badCh
  | typeErrorWrite
  | invalidBound
  | indexError
deriving DecidableEq, Repr

/-- The five bound letters of the VLP format, with the values each prints. -/
inductive BoundTag where
  | f : BoundTag
  | u (hi : XVal) : BoundTag
  | l (lo : XVal) : BoundTag
  | d (lo hi : XVal) : BoundTag
  | s (v : XVal) : BoundTag
deriving DecidableEq, Repr

/-- `cone` vs `dualcone` in the header clause. -/
inductive ConeTag where
  | cone : ConeTag
  | dualcone : ConeTag
deriving DecidableEq, Repr

/-- One line of the emitted file.  The header carries the direction token,
`m n k q k1` and the optional cone clause `(tag, columns, k2)`. -/
inductive VlpLine where
  | header (dir : String) (m n k q k1 : Nat) (cc : Option (ConeTag × Nat × Nat))
  | aLine (r c : Nat) (v : ℚ)
  | oLine (r c : Nat) (v : ℚ)
  | kLine (r c : Nat) (v : ℚ)
  | iLine (idx : Nat) (tag : BoundTag)
  | jLine (idx : Nat) (tag : BoundTag)
  | eLine
deriving DecidableEq, Repr

/-- `numpy` shape of a 2-D array given as a list of rows: column count. -/
def ncols (M : List (List ℚ)) : Nat := (M.headD []).length

/-- `scipy.sparse.find(lil_matrix(M))`: the structurally nonzero entries in
row-major order as `(row, col, value)` triplets (explicit zeros of the
dense input are never stored by `lil_matrix`, and `find` drops zeros). -/
def findTriplets (M : List (List ℚ)) : List (Nat × Nat × ℚ) :=
  (M.enum.map (fun r =>
    r.2.enum.filterMap (fun cv =>
      if cv.2 ≠ 0 then some (r.1, cv.1, cv.2) else Option.none))).flatten

/-- The cone selection of lines 56-66: `Y` is consulted first; `Z` only
when `Y` is absent or has no columns; otherwise no cone clause. -/
inductive ConeChoice where
  | cone (cols : Nat) (trips : List (Nat × Nat × ℚ))
  | dualcone (cols : Nat) (trips : List (Nat × Nat × ℚ))
  | noCone
deriving DecidableEq, Repr

/-- Lines 56-66 of `to_file`: `if self.Y is not None and self.Y.shape[1] > 0`
... `elif self.Z is not None and self.Z.shape[1] > 0` ... `else`. -/
def resolveCone (Y Z : Option (List (List ℚ))) : ConeChoice :=
  match Y with
  | some YM =>
    if 0 < ncols YM then ConeChoice.cone (ncols YM) (findTriplets YM)
    else
      match Z with
      | some ZM =>
        if 0 < ncols ZM then ConeChoice.dualcone (ncols ZM) (findTriplets ZM)
        else ConeChoice.noCone
      | Option.none => ConeChoice.noCone
  | Option.none =>
    match Z with
    | some ZM =>
      if 0 < ncols ZM then ConeChoice.dualcone (ncols ZM) (findTriplets ZM)
      else ConeChoice.noCone
    | Option.none => ConeChoice.noCone

/-- The triplets written as `k` lines for the chosen cone. -/
def coneTrips : ConeChoice → List (Nat × Nat × ℚ)
  | .cone _ ts => ts
  | .dualcone _ ts => ts
  | .noCone => []

/-- The header's cone clause (`kstr` at lines 56-66). -/
def coneClause : ConeChoice → Option (ConeTag × Nat × Nat)
  | .cone cols ts => some (ConeTag.cone, cols, ts.length)
  | .dualcone cols ts => some (ConeTag.dualcone, cols, ts.length)
  | .noCone => Option.none

/-- Lines 68-75: the direction token, or the `Invalid value for opt_dir`
error. -/
def dirString (d : Option Int) : Except VlpError String :=
  if d = some 1 then Except.ok "min"
  else if d = some (-1) then Except.ok "max"
  else Except.error VlpError.invalidOptDir

/-- The switch value `ch = 2 * np.isfinite(lower) + np.isfinite(upper)`
(lines 119 and 149). -/
def chCode (lo hi : XVal) : Nat :=
  2 * (if lo.isFinite then 1 else 0) + (if hi.isFinite then 1 else 0)

/-- The body of both bound loops (lines 117-134 and 147-164), per pair:
`lower < upper` dispatches on `ch`; equal finite bounds reach the
malformed `file.write('i %d s %g\n', ...)` call, which raises `TypeError`;
anything else raises the `Invalid constrsaints` error. -/
def classifyBound (lo hi : XVal) : Except VlpError BoundTag :=
  if XVal.lt lo hi then
    if chCode lo hi = 0 then Except.ok BoundTag.f
    else if chCode lo hi = 1 then Except.ok (BoundTag.u hi)
    else if chCode lo hi = 2 then Except.ok (BoundTag.l lo)
    else if chCode lo hi = 3 then Except.ok (BoundTag.d lo hi)
    else Except.error VlpError.badCh
  else if lo = hi ∧ lo.isFinite then Except.error VlpError.typeErrorWrite
  else Except.error VlpError.invalidBound

/-- One step of the row loop (lines 117-134): index into `aa`/`bb`, then
classify; an out-of-range index is Python's `IndexError`. -/
def rowLine (aa bb : List XVal) (i : Nat) : Except VlpError VlpLine :=
  match aa.get? i, bb.get? i with
  | some lo, some hi =>
    match classifyBound lo hi with
    | Except.ok t => Except.ok (VlpLine.iLine (i + 1) t)
    | Except.error e => Except.error e
  | _, _ => Except.error VlpError.indexError

/-- One step of the column loop (lines 147-164). -/
def colLine (llb uub : List XVal) (j : Nat) : Except VlpError VlpLine :=
  match llb.get? j, uub.get? j with
  | some lo, some hi =>
    match classifyBound lo hi with
    | Except.ok t => Except.ok (VlpLine.jLine (j + 1) t)
    | Except.error e => Except.error e
  | _, _ => Except.error VlpError.indexError

/-- Running a write loop: lines emitted before the first failing step stay
in the sink; the loop stops at the first error. -/
def emitLoop (f : Nat → Except VlpError VlpLine) : List Nat → List VlpLine × Option VlpError
  | [] => ([], Option.none)
  | i :: rest =>
    match f i with
    | Except.error e => ([], some e)
    | Except.ok line =>
      let (ls, e) := emitLoop f rest
      (line :: ls, e)

/-- Lines 96-100: the duality-parameter block.  A non-rank-1 `c` or a
length different from `q` raises `c has wrong dimension`; otherwise one
`k (i+1) 0 c[i]` line per objective. -/
def cPhase : CArr → Nat → Except VlpError (List VlpLine)
  | CArr.none, _ => Except.ok []
  | CArr.vec v, q =>
    if v.length ≠ q then Except.error VlpError.cDimension
    else Except.ok ((List.range q).map (fun i => VlpLine.kLine (i + 1) 0 (v.getD i 0)))
  | CArr.mat _, _ => Except.error VlpError.cDimension

/-- What the pre-open phase of `to_file` (lines 39-75) computes: the header
fields and the triplet lists. -/
structure Pre where
  dir : String
  m : Nat
  n : Nat
  q : Nat
  aT : List (Nat × Nat × ℚ)
  pT : List (Nat × Nat × ℚ)
  cc : ConeChoice
deriving DecidableEq, Repr

/-- Lines 39-75: everything `to_file` does before `open(filename, 'w')`.
`B`/`P` presence, shapes, the column-count match, the sparse triplets, the
cone selection and the direction token. -/
def preprocess (p : VlpProblem) : Except VlpError Pre :=
  match p.B with
  | Option.none => Except.error VlpError.missingB
  | some B =>
    match p.P with
    | Option.none => Except.error VlpError.missingP
    | some P =>
      if (B.headD []).length ≠ (P.headD []).length then Except.error VlpError.colMismatch
      else
        match dirString p.opt_dir with
        | Except.error e => Except.error e
        | Except.ok dir =>
          Except.ok
            { dir := dir, m := B.length, n := (B.headD []).length, q := P.length,
              aT := findTriplets B, pT := findTriplets P,
              cc := resolveCone p.Y p.Z }

/-- The `p vlp ...` header (line 83-84). -/
def hdrLine (pre : Pre) : VlpLine :=
  VlpLine.header pre.dir pre.m pre.n pre.aT.length pre.q pre.pT.length (coneClause pre.cc)

/-- The `a`, `o` and `k` triplet lines (lines 85-93), indices shifted by
one. -/
def matLines (pre : Pre) : List VlpLine :=
  pre.aT.map (fun t => VlpLine.aLine (t.1 + 1) (t.2.1 + 1) t.2.2)
    ++ pre.pT.map (fun t => VlpLine.oLine (t.1 + 1) (t.2.1 + 1) t.2.2)
    ++ (coneTrips pre.cc).map (fun t => VlpLine.kLine (t.1 + 1) (t.2.1 + 1) t.2.2)

/-- Lines 108-111: `aa` is `self.a`, or `-inf` repeated `m1` times when
absent. -/
def rowLos (a : BArr) (m1 : Nat) : List XVal :=
  match a with
  | BArr.vec v => v
  | _ => List.replicate m1 XVal.negInf

/-- Lines 112-115: `bb` is `self.b`, or `+inf` repeated `m1` times. -/
def rowHis (b : BArr) (m1 : Nat) : List XVal :=
  match b with
  | BArr.vec v => v
  | _ => List.replicate m1 XVal.posInf

/-- Lines 137-140: `llb` is `self.l`, or `-inf` repeated `n` times. -/
def colLos (l : Option (List XVal)) (n : Nat) : List XVal :=
  match l with
  | some v => v
  | Option.none => List.replicate n XVal.negInf

/-- Lines 142-145: `uub` is `self.s`, or `+inf` repeated `n` times. -/
def colHis (s : Option (List XVal)) (n : Nat) : List XVal :=
  match s with
  | some v => v
  | Option.none => List.replicate n XVal.posInf

/-- Lines 83-166: the write phase.  Returns the lines in the sink, the
error raised (if any) and whether `file.close()` at line 166 was reached
(it is reached only when no exception interrupts the writes). -/
def writePhase (p : VlpProblem) (pre : Pre) : List VlpLine × Option VlpError × Bool :=
  match cPhase p.c pre.q with
  | Except.error e => (hdrLine pre :: matLines pre, some e, false)
  | Except.ok cls =>
    if 1 < p.a.rank then
      (hdrLine pre :: matLines pre ++ cls, some VlpError.aDimension, false)
    else if 1 < p.b.rank then
      (hdrLine pre :: matLines pre ++ cls, some VlpError.bDimension, false)
    else
      match emitLoop
          (rowLine (rowLos p.a (max p.a.getlen p.b.getlen))
            (rowHis p.b (max p.a.getlen p.b.getlen)))
          (List.range (max p.a.getlen p.b.getlen)) with
      | (rls, some e) => (hdrLine pre :: matLines pre ++ cls ++ rls, some e, false)
      | (rls, Option.none) =>
        match emitLoop (colLine (colLos p.l pre.n) (colHis p.s pre.n)) (List.range pre.n) with
        | (jls, some e) =>
          (hdrLine pre :: matLines pre ++ cls ++ rls ++ jls, some e, false)
        | (jls, Option.none) =>
          (hdrLine pre :: matLines pre ++ cls ++ rls ++ jls ++ [VlpLine.eLine],
            Option.none, true)

/-- The observable outcome of one `to_file` call on the sink side. -/
structure EncodeOut where
  written : List VlpLine
  err : Option VlpError
  opened : Bool
  closed : Bool
deriving DecidableEq, Repr

/-- `to_file` after the filename check and the `opt_dir` default: validate,
open (when `openOk`), write. -/
def to_file_core (p : VlpProblem) (openOk : Bool) : EncodeOut :=
  match preprocess p with
  | Except.error e => ⟨[], some e, false, false⟩
  | Except.ok pre =>
    if openOk then
      let r := writePhase p pre
      ⟨r.1, r.2.1, true, r.2.2⟩
    else ⟨[], some VlpError.osError, false, false⟩

/-- Line 37-38: `if self.opt_dir is None: self.opt_dir = 1` — the one
mutation `to_file` performs on the model. -/
def defaultDir (p : VlpProblem) : VlpProblem :=
  if p.opt_dir.isNone then { p with opt_dir := some 1 } else p

/-- `VlpProblem.to_file` (lines 27-166).  Returns the sink outcome and the
model as it stands after the call (its `opt_dir` may have been set). -/
def to_file (p : VlpProblem) (filenameGiven openOk : Bool) : EncodeOut × VlpProblem :=
  if filenameGiven then
    let p1 := defaultDir p
    (to_file_core p1 openOk, p1)
  else (⟨[], some VlpError.noFilename, false, false⟩, p)

/-- Recognizer for `a` (constraint-matrix triplet) lines. -/
def isA : VlpLine → Bool
  | VlpLine.aLine _ _ _ => true
  | _ => false

/-- Recognizer for `o` (objective-matrix triplet) lines. -/
def isO : VlpLine → Bool
  | VlpLine.oLine _ _ _ => true
  | _ => false

/-- Recognizer for cone-generator `k` lines: their column index is a
0-based index plus one, hence nonzero, while duality-parameter `k` lines
carry the literal column 0. -/
def isConeK : VlpLine → Bool
  | VlpLine.kLine _ c _ => decide (c ≠ 0)
  | _ => false

/-- A model whose first row bound is the fixed case `a[0] = b[0] = 2`. -/
def mdlC1 : VlpProblem :=
  { B := some [[1]], a := BArr.vec [XVal.fin 2], b := BArr.vec [XVal.fin 2],
    l := some [XVal.fin 0], s := Option.none, P := some [[1]],
    Y := Option.none, Z := Option.none, c := CArr.none, opt_dir := some 1 }

/-- A model supplying both cone matrices with one column each. -/
def mdlC3 : VlpProblem :=
  { B := some [[1]], a := BArr.none, b := BArr.vec [XVal.fin 1],
    l := some [XVal.fin 0], s := Option.none, P := some [[1]],
    Y := some [[1]], Z := some [[2]], c := CArr.none, opt_dir := some 1 }

/-- A model whose duality parameter has the wrong length (2 against q=1). -/
def mdlC4 : VlpProblem :=
  { B := some [[1]], a := BArr.none, b := BArr.vec [XVal.fin 1],
    l := some [XVal.fin 0], s := Option.none, P := some [[1]],
    Y := Option.none, Z := Option.none, c := CArr.vec [1, 2], opt_dir := some 1 }

/-- A model with no constraint matrix at all. -/
def mdlMissingB : VlpProblem :=
  { B := Option.none, a := BArr.none, b := BArr.none,
    l := Option.none, s := Option.none, P := Option.none,
    Y := Option.none, Z := Option.none, c := CArr.none, opt_dir := some 1 }

/-- Scenario A: `B=[[2,1],[1,2]]`, `P` the 2×2 identity, row upper bounds
`b=[4,4]`, column lower bounds `l=[0,0]`, minimize. -/
def mdlC5 : VlpProblem :=
  { B := some [[2, 1], [1, 2]], a := BArr.none,
    b := BArr.vec [XVal.fin 4, XVal.fin 4],
    l := some [XVal.fin 0, XVal.fin 0], s := Option.none,
    P := some [[1, 0], [0, 1]],
    Y := Option.none, Z := Option.none, c := CArr.none, opt_dir := some 1 }

/-- A model with a primal cone matrix and a duality parameter. -/
def mdlC6 : VlpProblem :=
  { B := some [[1, 0], [0, 2]], a := BArr.none,
    b := BArr.vec [XVal.fin 1, XVal.fin 1],
    l := some [XVal.fin 0, XVal.fin 0], s := Option.none,
    P := some [[1, 1]],
    Y := some [[1, 2]], Z := Option.none, c := CArr.vec [5], opt_dir := some 1 }

/-- A model with a contradictory row bound pair `a[0]=2 > b[0]=1`. -/
def mdlC7 : VlpProblem :=
  { B := some [[1]], a := BArr.vec [XVal.fin 2], b := BArr.vec [XVal.fin 1],
    l := some [XVal.fin 0], s := Option.none, P := some [[1]],
    Y := Option.none, Z := Option.none, c := CArr.none, opt_dir := some 1 }

/-- Scenario B: a 3-row constraint matrix with row bounds `a=[0,0,1]`,
`b=[1,1,2]`. -/
def mdlC8 : VlpProblem :=
  { B := some [[1], [1], [1]],
    a := BArr.vec [XVal.fin 0, XVal.fin 0, XVal.fin 1],
    b := BArr.vec [XVal.fin 1, XVal.fin 1, XVal.fin 2],
    l := some [XVal.fin 0], s := Option.none, P := some [[1]],
    Y := Option.none, Z := Option.none, c := CArr.none, opt_dir := some 1 }

/-- A model whose `opt_dir` was never set. -/
def mdlC9 : VlpProblem :=
  { B := Option.none, a := BArr.none, b := BArr.none,
    l := Option.none, s := Option.none, P := Option.none,
    Y := Option.none, Z := Option.none, c := CArr.none, opt_dir := Option.none }

/-- Scenario A's model with `opt_dir` left unset. -/
def mdlC10 : VlpProblem :=
  { B := some [[2, 1], [1, 2]], a := BArr.none,
    b := BArr.vec [XVal.fin 4, XVal.fin 4],
    l := some [XVal.fin 0, XVal.fin 0], s := Option.none,
    P := some [[1, 0], [0, 1]],
    Y := Option.none, Z := Option.none, c := CArr.none, opt_dir := Option.none }

/-! ### Helper lemmas about the write phase -/

/-- Membership in the lines a loop emitted comes from an `ok` step. -/
theorem emitLoop_mem {f : Nat → Except VlpError VlpLine} :
    ∀ {l : List Nat} {x : VlpLine}, x ∈ (emitLoop f l).1 → ∃ i ∈ l, f i = Except.ok x := by
  intro l
  induction l with
  | nil => intro x h; simp [emitLoop] at h
  | cons i rest ih =>
    intro x h
    unfold emitLoop at h
    cases hf : f i with
    | error e => rw [hf] at h; simp at h
    | ok line =>
      rw [hf] at h
      simp at h
      rcases h with h | h
      · exact ⟨i, by simp, by rw [hf, h]⟩
      · obtain ⟨j, hj, hfj⟩ := ih h
        exact ⟨j, by simp [hj], hfj⟩

/-- An error from a loop comes from an error step. -/
theorem emitLoop_err {f : Nat → Except VlpError VlpLine} :
    ∀ {l : List Nat} {e : VlpError}, (emitLoop f l).2 = some e → ∃ i ∈ l, f i = Except.error e := by
  intro l
  induction l with
  | nil => intro e h; simp [emitLoop] at h
  | cons i rest ih =>
    intro e h
    unfold emitLoop at h
    cases hf : f i with
    | error e1 =>
      rw [hf] at h; simp at h
      exact ⟨i, by simp, by rw [hf, h]⟩
    | ok line =>
      rw [hf] at h; simp at h
      obtain ⟨j, hj, hfj⟩ := ih h
      exact ⟨j, by simp [hj], hfj⟩

/-- A successful row step emits an `i` line with the 1-shifted index. -/
theorem rowLine_ok {aa bb : List XVal} {i : Nat} {x : VlpLine}
    (h : rowLine aa bb i = Except.ok x) : ∃ t, x = VlpLine.iLine (i + 1) t := by
  unfold rowLine at h
  split at h
  · split at h
    · exact ⟨_, (Except.ok.injEq _ _).mp h |>.symm⟩
    · exact absurd h (by simp)
  · exact absurd h (by simp)

/-- A successful column step emits a `j` line with the 1-shifted index. -/
theorem colLine_ok {llb uub : List XVal} {j : Nat} {x : VlpLine}
    (h : colLine llb uub j = Except.ok x) : ∃ t, x = VlpLine.jLine (j + 1) t := by
  unfold colLine at h
  split at h
  · split at h
    · exact ⟨_, (Except.ok.injEq _ _).mp h |>.symm⟩
    · exact absurd h (by simp)
  · exact absurd h (by simp)

/-- The bound classifier only raises these three errors. -/
theorem classifyBound_err {lo hi : XVal} {e : VlpError}
    (h : classifyBound lo hi = Except.error e) :
    e = VlpError.badCh ∨ e = VlpError.typeErrorWrite ∨ e = VlpError.invalidBound := by
  unfold classifyBound at h
  split at h
  · split at h
    · exact absurd h (by simp)
    · split at h
      · exact absurd h (by simp)
      · split at h
        · exact absurd h (by simp)
        · split at h
          · exact absurd h (by simp)
          · exact Or.inl ((Except.error.injEq _ _).mp h).symm
  · split at h
    · exact Or.inr (Or.inl ((Except.error.injEq _ _).mp h).symm)
    · exact Or.inr (Or.inr ((Except.error.injEq _ _).mp h).symm)

/-- A row step only raises `IndexError` or a classifier error. -/
theorem rowLine_err {aa bb : List XVal} {i : Nat} {e : VlpError}
    (h : rowLine aa bb i = Except.error e) :
    e = VlpError.indexError ∨ e = VlpError.badCh ∨ e = VlpError.typeErrorWrite ∨
      e = VlpError.invalidBound := by
  unfold rowLine at h
  split at h
  · split at h
    · exact absurd h (by simp)
    · next heq =>
      exact Or.inr (classifyBound_err (((Except.error.injEq _ _).mp h) ▸ heq))
  · exact Or.inl ((Except.error.injEq _ _).mp h).symm

/-- A column step only raises `IndexError` or a classifier error. -/
theorem colLine_err {llb uub : List XVal} {j : Nat} {e : VlpError}
    (h : colLine llb uub j = Except.error e) :
    e = VlpError.indexError ∨ e = VlpError.badCh ∨ e = VlpError.typeErrorWrite ∨
      e = VlpError.invalidBound := by
  unfold colLine at h
  split at h
  · split at h
    · exact absurd h (by simp)
    · next heq =>
      exact Or.inr (classifyBound_err (((Except.error.injEq _ _).mp h) ▸ heq))
  · exact Or.inl ((Except.error.injEq _ _).mp h).symm

/-- The duality-parameter block emits only `k` lines with second index 0. -/
theorem cPhase_ok {ca : CArr} {q : Nat} {cls : List VlpLine}
    (h : cPhase ca q = Except.ok cls) : ∀ x ∈ cls, ∃ i v, x = VlpLine.kLine i 0 v := by
  intro x hx
  unfold cPhase at h
  split at h
  · injection h with h
    rw [← h] at hx
    simp at hx
  · split at h
    · exact absurd h (by simp)
    · injection h with h
      rw [← h] at hx
      obtain ⟨i, _, hix⟩ := List.mem_map.mp hx
      exact ⟨i + 1, _, hix.symm⟩
  · exact absurd h (by simp)

/-- The duality-parameter block only raises the dimension error. -/
theorem cPhase_err {ca : CArr} {q : Nat} {e : VlpError}
    (h : cPhase ca q = Except.error e) : e = VlpError.cDimension := by
  unfold cPhase at h
  split at h
  · exact absurd h (by simp)
  · split at h
    · injection h with h
      exact h.symm
    · exact absurd h (by simp)
  · injection h with h
    exact h.symm

/-- `file.close()` is reached exactly when the write phase raised nothing. -/
theorem writePhase_closed (p : VlpProblem) (pre : Pre) :
    (writePhase p pre).2.2 = ((writePhase p pre).2.1).isNone := by
  unfold writePhase
  split
  · rfl
  · split
    · rfl
    · split
      · rfl
      · split
        · rfl
        · split
          · rfl
          · rfl

/-- The errors the write phase can raise. -/
theorem writePhase_err_mem (p : VlpProblem) (pre : Pre) (e : VlpError)
    (h : (writePhase p pre).2.1 = some e) :
    e = VlpError.cDimension ∨ e = VlpError.aDimension ∨ e = VlpError.bDimension ∨
      e = VlpError.indexError ∨ e = VlpError.badCh ∨ e = VlpError.typeErrorWrite ∨
      e = VlpError.invalidBound := by
  unfold writePhase at h
  split at h
  · next e1 hcp =>
    simp at h
    exact Or.inl (h ▸ cPhase_err hcp)
  · split at h
    · simp at h
      exact Or.inr (Or.inl h.symm)
    · split at h
      · simp at h
        exact Or.inr (Or.inr (Or.inl h.symm))
      · split at h
        · next rls e1 hrow =>
          simp at h
          have h2 : (emitLoop
              (rowLine (rowLos p.a (max p.a.getlen p.b.getlen))
                (rowHis p.b (max p.a.getlen p.b.getlen)))
              (List.range (max p.a.getlen p.b.getlen))).2 = some e := by
            rw [hrow, h]
          obtain ⟨i, _, hi⟩ := emitLoop_err h2
          exact Or.inr (Or.inr (Or.inr (rowLine_err hi)))
        · split at h
          · next rls jls e1 hcol =>
            simp at h
            have h2 : (emitLoop (colLine (colLos p.l pre.n) (colHis p.s pre.n))
                (List.range pre.n)).2 = some e := by
              rw [hcol, h]
            obtain ⟨j, _, hj⟩ := emitLoop_err h2
            exact Or.inr (Or.inr (Or.inr (colLine_err hj)))
          · simp at h

/-- Shape of the sink on the successful path: header, triplet lines,
duality `k` lines, `i` lines, `j` lines, final `e`. -/
theorem writePhase_ok (p : VlpProblem) (pre : Pre) (w : List VlpLine) (cl : Bool)
    (h : writePhase p pre = (w, Option.none, cl)) :
    ∃ cls rls jls,
      w = hdrLine pre :: matLines pre ++ cls ++ rls ++ jls ++ [VlpLine.eLine] ∧
      (∀ x ∈ cls, ∃ i v, x = VlpLine.kLine i 0 v) ∧
      (∀ x ∈ rls, ∃ i t, x = VlpLine.iLine i t) ∧
      (∀ x ∈ jls, ∃ j t, x = VlpLine.jLine j t) := by
  unfold writePhase at h
  split at h
  · simp at h
  · next cls hcp =>
    split at h
    · simp at h
    · split at h
      · simp at h
      · split at h
        · simp at h
        · next rls hrow =>
          split at h
          · simp at h
          · next jls hcol =>
            simp at h
            refine ⟨cls, rls, jls, by rw [← h.1]; simp, cPhase_ok hcp, ?_, ?_⟩
            · intro x hx
              have hx2 : x ∈ (emitLoop
                  (rowLine (rowLos p.a (max p.a.getlen p.b.getlen))
                    (rowHis p.b (max p.a.getlen p.b.getlen)))
                  (List.range (max p.a.getlen p.b.getlen))).1 := by
                rw [hrow]; exact hx
              obtain ⟨i, _, hi⟩ := emitLoop_mem hx2
              obtain ⟨t, ht⟩ := rowLine_ok hi
              exact ⟨i + 1, t, ht⟩
            · intro x hx
              have hx2 : x ∈ (emitLoop (colLine (colLos p.l pre.n) (colHis p.s pre.n))
                  (List.range pre.n)).1 := by
                rw [hcol]; exact hx
              obtain ⟨j, _, hj⟩ := emitLoop_mem hx2
              obtain ⟨t, ht⟩ := colLine_ok hj
              exact ⟨j + 1, t, ht⟩

/-- Filtering keeps a list all of whose members satisfy the predicate. -/
theorem filter_all (p : VlpLine → Bool) :
    ∀ l : List VlpLine, (∀ x ∈ l, p x = true) → l.filter p = l := by
  intro l
  induction l with
  | nil => intro _; rfl
  | cons a as ih =>
    intro h
    have h1 := h a (by simp)
    simp [List.filter_cons, h1, ih (fun x hx => h x (by simp [hx]))]

/-- Filtering drops a list none of whose members satisfy the predicate. -/
theorem filter_none (p : VlpLine → Bool) :
    ∀ l : List VlpLine, (∀ x ∈ l, p x = false) → l.filter p = [] := by
  intro l
  induction l with
  | nil => intro _; rfl
  | cons a as ih =>
    intro h
    have h1 := h a (by simp)
    simp [List.filter_cons, h1, ih (fun x hx => h x (by simp [hx]))]

/-- `preprocess` with both matrices present, unfolded. -/
theorem preprocess_eq (p : VlpProblem) (B P : List (List ℚ))
    (hB : p.B = some B) (hP : p.P = some P) :
    preprocess p =
      (if (B.headD []).length ≠ (P.headD []).length then Except.error VlpError.colMismatch
       else
         match dirString p.opt_dir with
         | Except.error e => Except.error e
         | Except.ok dir =>
           Except.ok
             { dir := dir, m := B.length, n := (B.headD []).length, q := P.length,
               aT := findTriplets B, pT := findTriplets P,
               cc := resolveCone p.Y p.Z }) := by
  unfold preprocess
  rw [hB, hP]

/-- Fields of a successful pre-open phase, in terms of the model. -/
theorem preprocess_fields {p : VlpProblem} {pre : Pre} {B P : List (List ℚ)}
    (hB : p.B = some B) (hP : p.P = some P) (h : preprocess p = Except.ok pre) :
    pre.m = B.length ∧ pre.n = (B.headD []).length ∧ pre.q = P.length ∧
      pre.aT = findTriplets B ∧ pre.pT = findTriplets P ∧
      pre.cc = resolveCone p.Y p.Z ∧ dirString p.opt_dir = Except.ok pre.dir := by
  rw [preprocess_eq p B P hB hP] at h
  split at h
  · exact absurd h (by simp)
  · split at h
    · exact absurd h (by simp)
    · next dir hdir =>
      injection h with h
      rw [← h]
      exact ⟨rfl, rfl, rfl, rfl, rfl, rfl, hdir⟩

/-- Errors of the pre-open phase. -/
theorem preprocess_err_mem {p : VlpProblem} {e : VlpError}
    (h : preprocess p = Except.error e) :
    e = VlpError.missingB ∨ e = VlpError.missingP ∨ e = VlpError.colMismatch ∨
      e = VlpError.invalidOptDir := by
  unfold preprocess at h
  split at h
  · injection h with h
    exact Or.inl h.symm
  · split at h
    · injection h with h
      exact Or.inr (Or.inl h.symm)
    · split at h
      · injection h with h
        exact Or.inr (Or.inr (Or.inl h.symm))
      · split at h
        · next e1 hdir =>
          injection h with h
          have hd : e1 = VlpError.invalidOptDir := by
            unfold dirString at hdir
            split at hdir
            · exact absurd hdir (by simp)
            · split at hdir
              · exact absurd hdir (by simp)
              · injection hdir with h2
                exact h2.symm
          exact Or.inr (Or.inr (Or.inr (h ▸ hd)))
        · exact absurd h (by simp)

/-- The `opt_dir` default touches no other attribute. -/
theorem defaultDir_fields (p : VlpProblem) :
    (defaultDir p).B = p.B ∧ (defaultDir p).P = p.P ∧ (defaultDir p).a = p.a ∧
      (defaultDir p).b = p.b ∧ (defaultDir p).l = p.l ∧ (defaultDir p).s = p.s ∧
      (defaultDir p).Y = p.Y ∧ (defaultDir p).Z = p.Z ∧ (defaultDir p).c = p.c := by
  unfold defaultDir
  split <;> exact ⟨rfl, rfl, rfl, rfl, rfl, rfl, rfl, rfl, rfl⟩

/-- Strict order on extended values is asymmetric. -/
theorem XVal.lt_asymm {x y : XVal} (h : XVal.lt x y = true) : XVal.lt y x = false := by
  cases x <;> cases y <;> simp_all [XVal.lt]
  exact le_of_lt h

/-- Strictly ordered extended values are distinct. -/
theorem XVal.lt_ne {x y : XVal} (h : XVal.lt x y = true) : ¬x = y := by
  cases x <;> cases y <;> simp_all [XVal.lt]
  exact ne_of_lt h

/-- C2: each bound pair reaching the loops of `to_file` yields, for
`lower < upper`, exactly the tag selected by
`ch = 2*isfinite(lower) + isfinite(upper)` (`0→f`, `1→u`, `2→l`, `3→d`);
for `lower > upper`, and for `lower == upper` with an infinite bound, it
raises the invalid-bound error instead of emitting a line. -/
theorem classifyBound_total (lo hi : XVal) :
    (XVal.lt lo hi = true →
      classifyBound lo hi = Except.ok
        (if chCode lo hi = 0 then BoundTag.f
         else if chCode lo hi = 1 then BoundTag.u hi
         else if chCode lo hi = 2 then BoundTag.l lo
         else BoundTag.d lo hi)) ∧
    (XVal.lt hi lo = true → classifyBound lo hi = Except.error VlpError.invalidBound) ∧
    (lo = hi → lo.isFinite = false → classifyBound lo hi = Except.error VlpError.invalidBound) := by
  refine ⟨?_, ?_, ?_⟩
  · intro h
    unfold classifyBound
    rw [h]
    cases hlo : lo.isFinite <;> cases hhi : hi.isFinite <;> simp [chCode, hlo, hhi]
  · intro h
    have h1 : XVal.lt lo hi = false := XVal.lt_asymm h
    have h2 : ¬lo = hi := fun he => XVal.lt_ne h he.symm
    simp [classifyBound, h1, h2]
  · intro he hf
    subst he
    have h1 : XVal.lt lo lo = false := by cases lo <;> simp [XVal.lt]
    simp [classifyBound, h1, hf]

/-- Witness for `classifyBound_total` at concrete bound pairs. -/
theorem classifyBound_total_inst :
    classifyBound (XVal.fin 0) (XVal.fin 1) =
        Except.ok (BoundTag.d (XVal.fin 0) (XVal.fin 1)) ∧
    classifyBound (XVal.fin 1) (XVal.fin 0) = Except.error VlpError.invalidBound ∧
    classifyBound XVal.posInf XVal.posInf = Except.error VlpError.invalidBound := by
  refine ⟨?_, ?_, ?_⟩
  · have h := (classifyBound_total (XVal.fin 0) (XVal.fin 1)).1 (by decide)
    simpa [chCode, XVal.isFinite] using h
  · exact (classifyBound_total (XVal.fin 1) (XVal.fin 0)).2.1 (by decide)
  · exact (classifyBound_total XVal.posInf XVal.posInf).2.2 rfl (by decide)

/-- C7 (amended): the sink is closed exactly on the path where it was
opened and no exception was raised; an error raised after opening leaves
the file unclosed (there is no `try`/`finally` around the writes). -/
theorem to_file_close_on_success_only (p : VlpProblem) (fg ok : Bool) :
    (to_file p fg ok).1.closed =
      ((to_file p fg ok).1.opened && ((to_file p fg ok).1.err).isNone) := by
  have hcore : ∀ (p1 : VlpProblem),
      (to_file_core p1 ok).closed =
        ((to_file_core p1 ok).opened && ((to_file_core p1 ok).err).isNone) := by
    intro p1
    cases hpre : preprocess p1 with
    | error e => simp [to_file_core, hpre]
    | ok pre =>
      cases ok
      · simp [to_file_core, hpre]
      · simp [to_file_core, hpre, writePhase_closed]
  cases fg
  · simp [to_file]
  · simp [to_file, hcore]

/-- C9 (amended): a `to_file` call leaves every attribute unchanged except
`opt_dir`, which is set to `1` exactly when a filename was given and it
was unset; repeating the call on the resulting model gives the identical
outcome and the identical model. -/
theorem to_file_frame (p : VlpProblem) (fg ok : Bool) :
    ((to_file p fg ok).2.B = p.B ∧ (to_file p fg ok).2.P = p.P ∧
      (to_file p fg ok).2.a = p.a ∧ (to_file p fg ok).2.b = p.b ∧
      (to_file p fg ok).2.l = p.l ∧ (to_file p fg ok).2.s = p.s ∧
      (to_file p fg ok).2.Y = p.Y ∧ (to_file p fg ok).2.Z = p.Z ∧
      (to_file p fg ok).2.c = p.c) ∧
    (to_file p fg ok).2.opt_dir =
      (if fg = true ∧ p.opt_dir = Option.none then some 1 else p.opt_dir) ∧
    to_file ((to_file p fg ok).2) fg ok = to_file p fg ok := by
  cases fg
  · simp [to_file]
  · cases hd : p.opt_dir
    · simp [to_file, defaultDir, hd]
    · simp [to_file, defaultDir, hd]

/-- C3 (amended): both cone matrices with positive column counts are
accepted; `Y` takes precedence and the clause is `cone`; matrices that are
absent or have zero columns leave the header without a cone clause. -/
theorem resolveCone_prefers_Y (Y Z Y0 Z0 : List (List ℚ))
    (hY : 0 < ncols Y) (hZ : 0 < ncols Z) (hY0 : ncols Y0 = 0) (hZ0 : ncols Z0 = 0) :
    resolveCone (some Y) (some Z) = ConeChoice.cone (ncols Y) (findTriplets Y) ∧
    resolveCone (some Y0) (some Z0) = ConeChoice.noCone ∧
    resolveCone Option.none Option.none = ConeChoice.noCone := by
  refine ⟨?_, ?_, rfl⟩
  · simp [resolveCone, hY]
  · simp [resolveCone, hY0, hZ0]

/-- Witness for `resolveCone_prefers_Y` at concrete matrices. -/
theorem resolveCone_prefers_Y_inst :
    resolveCone (some [[1]]) (some [[2]]) = ConeChoice.cone 1 [(0, 0, 1)] ∧
    resolveCone (some []) (some []) = ConeChoice.noCone ∧
    resolveCone Option.none Option.none = ConeChoice.noCone := by
  have h := resolveCone_prefers_Y [[1]] [[2]] [] []
    (by decide) (by decide) (by decide) (by decide)
  refine ⟨?_, h.2.1, h.2.2⟩
  rw [h.1]
  rfl

/-- C4 (amended): the checks that run before the sink is opened (missing
`B`, missing `P`, `B`/`P` column mismatch, invalid direction) produce no
output at all; the remaining validation errors are raised during writing. -/
theorem validation_before_writes (p : VlpProblem) (fg ok : Bool) (e : VlpError)
    (he : (to_file p fg ok).1.err = some e)
    (hkind : e = VlpError.missingB ∨ e = VlpError.missingP ∨ e = VlpError.colMismatch ∨
      e = VlpError.invalidOptDir) :
    (to_file p fg ok).1.written = [] ∧ (to_file p fg ok).1.opened = false := by
  cases fg
  · simp [to_file]
  · cases hpre : preprocess (defaultDir p) with
    | error e1 => simp [to_file, to_file_core, hpre]
    | ok pre =>
      cases ok
      · simp [to_file, to_file_core, hpre]
      · rw [show (to_file p true true).1 = to_file_core (defaultDir p) true from rfl] at he
        simp only [to_file_core, hpre] at he
        have hmem := writePhase_err_mem (defaultDir p) pre e he
        rcases hkind with rfl | rfl | rfl | rfl <;> simp at hmem

/-- Witness for `validation_before_writes`: a model without `B`. -/
theorem validation_before_writes_inst :
    (to_file mdlMissingB true true).1.err = some VlpError.missingB ∧
    (to_file mdlMissingB true true).1.written = [] ∧
    (to_file mdlMissingB true true).1.opened = false := by
  have h := validation_before_writes mdlMissingB true true VlpError.missingB rfl (Or.inl rfl)
  exact ⟨rfl, h⟩

/-- With a direction already resolved to `1`, the pre-open phase cannot
raise the invalid-direction error. -/
theorem preprocess_dir_ok {p : VlpProblem} (h1 : p.opt_dir = some 1) :
    preprocess p ≠ Except.error VlpError.invalidOptDir := by
  intro h
  unfold preprocess at h
  split at h
  · simp at h
  · split at h
    · simp at h
    · split at h
      · simp at h
      · split at h
        · next e1 hdir =>
          rw [h1] at hdir
          simp [dirString] at hdir
        · simp at h

/-- With a direction resolved to `1`, a successful pre-open phase carries
the `min` token. -/
theorem preprocess_dir_min {p : VlpProblem} {pre : Pre} (h1 : p.opt_dir = some 1)
    (h : preprocess p = Except.ok pre) : pre.dir = "min" := by
  unfold preprocess at h
  split at h
  · simp at h
  · split at h
    · simp at h
    · split at h
      · simp at h
      · split at h
        · simp at h
        · next dir hdir =>
          rw [h1] at hdir
          simp [dirString] at hdir
          injection h with h
          rw [← h]
          exact hdir.symm

/-- C10: a model whose `opt_dir` was never set is not rejected with the
invalid-direction error; `to_file` sets `opt_dir` to `1` on the model, and
when it succeeds the header carries the `min` token. -/
theorem optdir_defaults_to_min (p : VlpProblem) (ok : Bool)
    (h0 : p.opt_dir = Option.none) :
    (to_file p true ok).2.opt_dir = some 1 ∧
    (to_file p true ok).1.err ≠ some VlpError.invalidOptDir ∧
    ((to_file p true ok).1.err = Option.none →
      ∃ m n k q k1 cc, (to_file p true ok).1.written.head? =
        some (VlpLine.header "min" m n k q k1 cc)) := by
  have hdir1 : (defaultDir p).opt_dir = some 1 := by simp [defaultDir, h0]
  have hfst : (to_file p true ok).1 = to_file_core (defaultDir p) ok := rfl
  refine ⟨hdir1, ?_, ?_⟩
  · rw [hfst]
    cases hpre : preprocess (defaultDir p) with
    | error e =>
      simp only [to_file_core, hpre]
      intro hE
      injection hE with hE
      exact preprocess_dir_ok hdir1 (hE ▸ hpre)
    | ok pre =>
      cases ok
      · simp [to_file_core, hpre]
      · simp only [to_file_core, hpre]
        intro hE
        have hmem := writePhase_err_mem (defaultDir p) pre _ hE
        simp at hmem
  · rw [hfst]
    intro hsucc
    cases hpre : preprocess (defaultDir p) with
    | error e => simp [to_file_core, hpre] at hsucc
    | ok pre =>
      cases ok
      · simp [to_file_core, hpre] at hsucc
      · simp only [to_file_core, hpre, if_true] at hsucc ⊢
        have hw : writePhase (defaultDir p) pre =
            ((writePhase (defaultDir p) pre).1, Option.none,
              (writePhase (defaultDir p) pre).2.2) := by
          rw [← hsucc]
        obtain ⟨cls, rls, jls, hwEq, -, -, -⟩ := writePhase_ok _ _ _ _ hw
        refine ⟨pre.m, pre.n, pre.aT.length, pre.q, pre.pT.length,
          coneClause pre.cc, ?_⟩
        rw [hwEq]
        simp [hdrLine, preprocess_dir_min hdir1 hpre]

/-- Witness for `optdir_defaults_to_min`: Scenario A's model with an unset
direction. -/
theorem optdir_defaults_to_min_inst :
    (to_file mdlC10 true true).2.opt_dir = some 1 ∧
    (to_file mdlC10 true true).1.err ≠ some VlpError.invalidOptDir ∧
    ((to_file mdlC10 true true).1.err = Option.none →
      ∃ m n k q k1 cc, (to_file mdlC10 true true).1.written.head? =
        some (VlpLine.header "min" m n k q k1 cc)) :=
  optdir_defaults_to_min mdlC10 true rfl

/-- C6: on a successful encode, the `a` lines are exactly `B`'s triplets
with both indices shifted by one, the `o` lines exactly `P`'s, the
cone-generator `k` lines exactly the chosen cone matrix's, and the header
carries `k = nnz(B)` and `k1 = nnz(P)`, so the line counts match the
header counts. -/
theorem matrix_triplet_lines (p : VlpProblem) (ok : Bool) (B P : List (List ℚ))
    (hB : p.B = some B) (hP : p.P = some P)
    (hs : (to_file p true ok).1.err = Option.none) :
    (to_file p true ok).1.written.filter isA =
      (findTriplets B).map (fun t => VlpLine.aLine (t.1 + 1) (t.2.1 + 1) t.2.2) ∧
    (to_file p true ok).1.written.filter isO =
      (findTriplets P).map (fun t => VlpLine.oLine (t.1 + 1) (t.2.1 + 1) t.2.2) ∧
    (to_file p true ok).1.written.filter isConeK =
      (coneTrips (resolveCone p.Y p.Z)).map
        (fun t => VlpLine.kLine (t.1 + 1) (t.2.1 + 1) t.2.2) ∧
    (∃ dir cc, (to_file p true ok).1.written.head? =
      some (VlpLine.header dir B.length (B.headD []).length (findTriplets B).length
        P.length (findTriplets P).length cc)) := by
  have hB1 : (defaultDir p).B = some B := by rw [(defaultDir_fields p).1, hB]
  have hP1 : (defaultDir p).P = some P := by rw [(defaultDir_fields p).2.1, hP]
  have hY1 : (defaultDir p).Y = p.Y := (defaultDir_fields p).2.2.2.2.2.2.1
  have hZ1 : (defaultDir p).Z = p.Z := (defaultDir_fields p).2.2.2.2.2.2.2.1
  have hfst : (to_file p true ok).1 = to_file_core (defaultDir p) ok := rfl
  rw [hfst] at hs ⊢
  cases hpre : preprocess (defaultDir p) with
  | error e => simp [to_file_core, hpre] at hs
  | ok pre =>
    cases ok
    · simp [to_file_core, hpre] at hs
    · simp only [to_file_core, hpre, if_true] at hs ⊢
      have hw : writePhase (defaultDir p) pre =
          ((writePhase (defaultDir p) pre).1, Option.none,
            (writePhase (defaultDir p) pre).2.2) := by
        rw [← hs]
      obtain ⟨cls, rls, jls, hwEq, hcls, hrls, hjls⟩ := writePhase_ok _ _ _ _ hw
      obtain ⟨hm, hn, hq, haT, hpT, hcc, -⟩ := preprocess_fields hB1 hP1 hpre
      have hccP : resolveCone p.Y p.Z = pre.cc := by rw [← hY1, ← hZ1, ← hcc]
      have hmatA : (matLines pre).filter isA =
          pre.aT.map (fun t => VlpLine.aLine (t.1 + 1) (t.2.1 + 1) t.2.2) := by
        unfold matLines
        simp only [List.filter_append]
        rw [filter_all isA _ (fun x hx => by
              obtain ⟨t, -, rfl⟩ := List.mem_map.mp hx; rfl),
            filter_none isA _ (fun x hx => by
              obtain ⟨t, -, rfl⟩ := List.mem_map.mp hx; rfl),
            filter_none isA _ (fun x hx => by
              obtain ⟨t, -, rfl⟩ := List.mem_map.mp hx; rfl)]
        simp
      have hmatO : (matLines pre).filter isO =
          pre.pT.map (fun t => VlpLine.oLine (t.1 + 1) (t.2.1 + 1) t.2.2) := by
        unfold matLines
        simp only [List.filter_append]
        rw [filter_none isO _ (fun x hx => by
              obtain ⟨t, -, rfl⟩ := List.mem_map.mp hx; rfl),
            filter_all isO _ (fun x hx => by
              obtain ⟨t, -, rfl⟩ := List.mem_map.mp hx; rfl),
            filter_none isO _ (fun x hx => by
              obtain ⟨t, -, rfl⟩ := List.mem_map.mp hx; rfl)]
        simp
      have hmatK : (matLines pre).filter isConeK =
          (coneTrips pre.cc).map (fun t => VlpLine.kLine (t.1 + 1) (t.2.1 + 1) t.2.2) := by
        unfold matLines
        simp only [List.filter_append]
        rw [filter_none isConeK _ (fun x hx => by
              obtain ⟨t, -, rfl⟩ := List.mem_map.mp hx; rfl),
            filter_none isConeK _ (fun x hx => by
              obtain ⟨t, -, rfl⟩ := List.mem_map.mp hx; rfl),
            filter_all isConeK _ (fun x hx => by
              obtain ⟨t, -, rfl⟩ := List.mem_map.mp hx; simp [isConeK])]
        simp
      have hclsA : cls.filter isA = [] :=
        filter_none isA cls (fun x hx => by obtain ⟨i, v, rfl⟩ := hcls x hx; rfl)
      have hclsO : cls.filter isO = [] :=
        filter_none isO cls (fun x hx => by obtain ⟨i, v, rfl⟩ := hcls x hx; rfl)
      have hclsK : cls.filter isConeK = [] :=
        filter_none isConeK cls (fun x hx => by obtain ⟨i, v, rfl⟩ := hcls x hx; rfl)
      have hrlsA : rls.filter isA = [] :=
        filter_none isA rls (fun x hx => by obtain ⟨i, t, rfl⟩ := hrls x hx; rfl)
      have hrlsO : rls.filter isO = [] :=
        filter_none isO rls (fun x hx => by obtain ⟨i, t, rfl⟩ := hrls x hx; rfl)
      have hrlsK : rls.filter isConeK = [] :=
        filter_none isConeK rls (fun x hx => by obtain ⟨i, t, rfl⟩ := hrls x hx; rfl)
      have hjlsA : jls.filter isA = [] :=
        filter_none isA jls (fun x hx => by obtain ⟨j, t, rfl⟩ := hjls x hx; rfl)
      have hjlsO : jls.filter isO = [] :=
        filter_none isO jls (fun x hx => by obtain ⟨j, t, rfl⟩ := hjls x hx; rfl)
      have hjlsK : jls.filter isConeK = [] :=
        filter_none isConeK jls (fun x hx => by obtain ⟨j, t, rfl⟩ := hjls x hx; rfl)
      rw [hwEq]
      refine ⟨?_, ?_, ?_, ?_⟩
      · simp only [List.filter_cons, List.filter_append]
        rw [hmatA, hclsA, hrlsA, hjlsA]
        simp [isA, hdrLine, haT]
      · simp only [List.filter_cons, List.filter_append]
        rw [hmatO, hclsO, hrlsO, hjlsO]
        simp [isO, hdrLine, hpT]
      · simp only [List.filter_cons, List.filter_append]
        rw [hmatK, hclsK, hrlsK, hjlsK]
        simp [isConeK, hdrLine, hccP]
      · refine ⟨pre.dir, coneClause pre.cc, ?_⟩
        simp [hdrLine, hm, hn, hq, haT, hpT]

/-- Witness for `matrix_triplet_lines` at a concrete model with a cone and
a duality parameter. -/
theorem matrix_triplet_lines_inst :
    (to_file mdlC6 true true).1.written.filter isA =
      (findTriplets [[1, 0], [0, 2]]).map
        (fun t => VlpLine.aLine (t.1 + 1) (t.2.1 + 1) t.2.2) ∧
    (to_file mdlC6 true true).1.written.filter isO =
      (findTriplets [[1, 1]]).map
        (fun t => VlpLine.oLine (t.1 + 1) (t.2.1 + 1) t.2.2) ∧
    (to_file mdlC6 true true).1.written.filter isConeK =
      (coneTrips (resolveCone mdlC6.Y mdlC6.Z)).map
        (fun t => VlpLine.kLine (t.1 + 1) (t.2.1 + 1) t.2.2) ∧
    (∃ dir cc, (to_file mdlC6 true true).1.written.head? =
      some (VlpLine.header dir (List.length [[1, 0], [0, 2]])
        (List.headD [[1, 0], [0, 2]] []).length
        (findTriplets [[1, 0], [0, 2]]).length
        (List.length [[1, 1]]) (findTriplets [[1, 1]]).length cc)) :=
  matrix_triplet_lines mdlC6 true [[1, 0], [0, 2]] [[1, 1]] rfl rfl rfl

/-- C1: on a model with a fixed row bound (`a[0] = b[0] = 2`, both finite)
the encoder does not emit an `i ... s ...` line; the malformed
`file.write('i %d s %g\n', i, aa[i])` call raises `TypeError` after only
the header and matrix lines have been written. -/
theorem fixed_bound_write_fails :
    (to_file mdlC1 true true).1.err = some VlpError.typeErrorWrite ∧
    (to_file mdlC1 true true).1.written =
      [VlpLine.header "min" 1 1 1 1 1 Option.none,
       VlpLine.aLine 1 1 1, VlpLine.oLine 1 1 1] := by
  exact ⟨rfl, rfl⟩

/-- C3 counterexample: a model supplying both `Y` and `Z` with one column
each encodes without any error; the header takes its cone clause from
`Y`. -/
theorem both_cones_no_error :
    (to_file mdlC3 true true).1.err = Option.none ∧
    (to_file mdlC3 true true).1.written.head? =
      some (VlpLine.header "min" 1 1 1 1 1 (some (ConeTag.cone, 1, 1))) := by
  exact ⟨rfl, rfl⟩

/-- C4 counterexample: a wrong-length duality parameter is only detected
after the header and the matrix triplet lines are already in the sink. -/
theorem c_error_after_partial_output :
    (to_file mdlC4 true true).1.err = some VlpError.cDimension ∧
    (to_file mdlC4 true true).1.written =
      [VlpLine.header "min" 1 1 1 1 1 Option.none,
       VlpLine.aLine 1 1 1, VlpLine.oLine 1 1 1] := by
  exact ⟨rfl, rfl⟩

/-- C5 counterexample: Scenario A's header is `p vlp min 2 2 4 2 2` —
`k1` is the objective matrix's nonzero count 2, not 4 as claimed. -/
theorem scenarioA_header_differs :
    (to_file mdlC5 true true).1.written.head? =
      some (VlpLine.header "min" 2 2 4 2 2 Option.none) ∧
    ¬VlpLine.header "min" 2 2 4 2 4 Option.none ∈ (to_file mdlC5 true true).1.written := by
  exact ⟨rfl, by decide⟩

/-- C5 (amended): Scenario A encodes to header `p vlp min 2 2 4 2 2`
followed by `B`'s four triplets, the identity's two, row lines
`i 1 u 4` / `i 2 u 4`, column lines `j 1 l 0` / `j 2 l 0` and `e`. -/
theorem scenarioA_lines :
    (to_file mdlC5 true true).1.err = Option.none ∧
    (to_file mdlC5 true true).1.written =
      [VlpLine.header "min" 2 2 4 2 2 Option.none,
       VlpLine.aLine 1 1 2, VlpLine.aLine 1 2 1,
       VlpLine.aLine 2 1 1, VlpLine.aLine 2 2 2,
       VlpLine.oLine 1 1 1, VlpLine.oLine 2 2 1,
       VlpLine.iLine 1 (BoundTag.u (XVal.fin 4)),
       VlpLine.iLine 2 (BoundTag.u (XVal.fin 4)),
       VlpLine.jLine 1 (BoundTag.l (XVal.fin 0)),
       VlpLine.jLine 2 (BoundTag.l (XVal.fin 0)),
       VlpLine.eLine] := by
  exact ⟨rfl, rfl⟩

/-- C7 counterexample: an invalid row bound pair raised after the sink was
opened leaves the file open — `file.close()` on line 166 is never
reached. -/
theorem error_leaves_file_unclosed :
    (to_file mdlC7 true true).1.err = some VlpError.invalidBound ∧
    (to_file mdlC7 true true).1.opened = true ∧
    (to_file mdlC7 true true).1.closed = false := by
  exact ⟨rfl, rfl, rfl⟩

/-- C8 counterexample: with `a=[0,0,1]`, `b=[1,1,2]` the third row bound
pair is doubly bounded, so the encoder emits `i 3 d 1 2` and no
`i 3 l 1` line appears. -/
theorem scenarioB_row3_not_l :
    VlpLine.iLine 3 (BoundTag.d (XVal.fin 1) (XVal.fin 2)) ∈
      (to_file mdlC8 true true).1.written ∧
    ¬VlpLine.iLine 3 (BoundTag.l (XVal.fin 1)) ∈ (to_file mdlC8 true true).1.written := by
  exact ⟨by decide, by decide⟩

/-- C8 (amended): Scenario B emits `i 1 d 0 1` for row 1 and `i 3 d 1 2`
for row 3, since `b` supplies the finite upper bound 2 there. -/
theorem scenarioB_lines :
    (to_file mdlC8 true true).1.err = Option.none ∧
    (to_file mdlC8 true true).1.written =
      [VlpLine.header "min" 3 1 3 1 1 Option.none,
       VlpLine.aLine 1 1 1, VlpLine.aLine 2 1 1, VlpLine.aLine 3 1 1,
       VlpLine.oLine 1 1 1,
       VlpLine.iLine 1 (BoundTag.d (XVal.fin 0) (XVal.fin 1)),
       VlpLine.iLine 2 (BoundTag.d (XVal.fin 0) (XVal.fin 1)),
       VlpLine.iLine 3 (BoundTag.d (XVal.fin 1) (XVal.fin 2)),
       VlpLine.jLine 1 (BoundTag.l (XVal.fin 0)),
       VlpLine.eLine] := by
  exact ⟨rfl, rfl⟩

/-- C9 counterexample: a call on a model with unset `opt_dir` mutates the
model — afterwards `opt_dir` is `1`, so the model is not unchanged. -/
theorem optdir_mutation :
    mdlC9.opt_dir = Option.none ∧
    (to_file mdlC9 true true).2.opt_dir = some 1 := by
  exact ⟨rfl, rfl⟩
